import Mathlib

/-!
Verification of the Sudoku-as-SAT encoder/decoder (`src/main.rs`).

The program encodes a 9x9 Sudoku grid as a CNF formula over variables
`id = y * 81 + x * 9 + d` (cell at row `y`, column `x` holds digit `d`,
all zero-based), hands the formula plus unit clauses for the given digits
to an external SAT solver, and decodes the returned model back into a grid.

The development below is a shallow embedding of that code:
* `Lit`, `Clause`, `sudoku_formula`, `givenClauses` mirror the clause
  generation in `sudoku_formula` and the given-digit loop of `Grid::solve`;
* `Grid`, `Grid.get`, `Grid.from_str` mirror the grid type, its accessor and
  its `FromStr` instance;
* the SAT engine (the `varisat` crate) is external to the repository, so it
  is abstracted as a `SolveResult` oracle; theorems that depend on the
  solver's answer carry the hypothesis that the returned assignment
  satisfies the clauses handed to the solver;
* `decodeStep` / `decodeModel` mirror the model-decoding loop of
  `Grid::solve`, with `SolveOutcome.fatal` standing for the Rust
  `unreachable!` abort.
-/

/-- A cell of the grid: `Option<u8>` in the source (digit stored zero-based). -/
abbrev Cell := Option Nat

/-- The 9x9 board: `struct Grid { cells: [Cell; 81] }`, row-major. -/
structure Grid where
  cells : List Cell
deriving DecidableEq

/-- A signed variable reference, as produced by `Var::from_index(i).positive()`
or `.negative()` in the source. `sign = true` is the positive literal. -/
structure Lit where
  idx : Nat
  sign : Bool
deriving DecidableEq

/-- `Var::from_index(v).positive()`. -/
def posLit (v : Nat) : Lit := ⟨v, true⟩

/-- `Var::from_index(v).negative()`. -/
def negLit (v : Nat) : Lit := ⟨v, false⟩

/-- A clause: a disjunction of literals. -/
abbrev Clause := List Lit

/-- A literal is satisfied when the assignment gives its variable its sign. -/
def litSat (A : Nat → Bool) (l : Lit) : Bool := A l.idx == l.sign

/-- A clause is satisfied when some literal of it is. -/
def clauseSat (A : Nat → Bool) (c : Clause) : Bool := c.any (litSat A)

/-- A clause list (conjunction) is satisfied when every clause is. -/
def satFormula (A : Nat → Bool) (F : List Clause) : Bool := F.all (clauseSat A)

/-- The "only one value per cell" clauses for cell `(x, y)`: for `a < b` the
clause `¬var(y*81+x*9+a) ∨ ¬var(y*81+x*9+b)` (inner loops over `a` and
`b in (a+1)..9` in the source). -/
def cellUniqClauses (y x : Nat) : List Clause :=
  (List.range 9).flatMap fun a =>
    ((List.range 9).filter fun b => a < b).map fun b =>
      [negLit (y * 81 + x * 9 + a), negLit (y * 81 + x * 9 + b)]

/-- The "each cell must contain at least one value" clause for cell `(x, y)`. -/
def cellCovClause (y x : Nat) : Clause :=
  (List.range 9).map fun v => posLit (y * 81 + x * 9 + v)

/-- The per-cell part of the formula, in source order: for each cell the 36
uniqueness clauses followed by the coverage clause. -/
def cellClauses : List Clause :=
  (List.range 9).flatMap fun y =>
    (List.range 9).flatMap fun x =>
      cellUniqClauses y x ++ [cellCovClause y x]

/-- Only the uniqueness part of the per-cell clauses (the first inner loop of
the cell section of `sudoku_formula`). -/
def cellUniquenessClauses : List Clause :=
  (List.range 9).flatMap fun y =>
    (List.range 9).flatMap fun x =>
      cellUniqClauses y x

/-- The row constraints: for each row `y`, cell `x`, digit `d` and each other
cell `x2 ≠ x` of the row, `¬var(y,x,d) ∨ ¬var(y,x2,d)` (both orderings of the
pair are generated, as in the source). -/
def rowClauses : List Clause :=
  (List.range 9).flatMap fun y =>
    (List.range 9).flatMap fun x =>
      (List.range 9).flatMap fun d =>
        ((List.range 9).filter fun x2 => x != x2).map fun x2 =>
          [negLit (y * 81 + x * 9 + d), negLit (y * 81 + x2 * 9 + d)]

/-- The column constraints, symmetric to the row constraints. -/
def columnClauses : List Clause :=
  (List.range 9).flatMap fun x =>
    (List.range 9).flatMap fun y =>
      (List.range 9).flatMap fun d =>
        ((List.range 9).filter fun y2 => y != y2).map fun y2 =>
          [negLit (y * 81 + x * 9 + d), negLit (y2 * 81 + x * 9 + d)]

/-- The block constraints: `x1 = i % 3`, `y1 = i / 3`, `bx = block_idx % 3`,
`by = block_idx / 3`, variable `(by*3+y1)*81 + (bx*3+x1)*9 + d`. -/
def blockClauses : List Clause :=
  (List.range 9).flatMap fun blockIdx =>
    (List.range 9).flatMap fun i =>
      (List.range 9).flatMap fun d =>
        ((List.range 9).filter fun i2 => i != i2).map fun i2 =>
          [negLit ((blockIdx / 3 * 3 + i / 3) * 81 + (blockIdx % 3 * 3 + i % 3) * 9 + d),
           negLit ((blockIdx / 3 * 3 + i2 / 3) * 81 + (blockIdx % 3 * 3 + i2 % 3) * 9 + d)]

/-- The complete puzzle-independent formula, clause families in source order. -/
def sudoku_formula : List Clause :=
  cellClauses ++ rowClauses ++ columnClauses ++ blockClauses

/-- `Grid::get`: `self.cells[y * 9 + x]`. -/
def Grid.get (g : Grid) (x y : Nat) : Cell := g.cells.getD (y * 9 + x) none

/-- The unit clauses for the given digits: the "Add filled in values" loop of
`Grid::solve` adds `var(y*81 + x*9 + d).positive()` for every filled cell. -/
def givenClauses (g : Grid) : List Clause :=
  (List.range 9).flatMap fun y =>
    (List.range 9).flatMap fun x =>
      match g.get x y with
      | some d => [[posLit (y * 81 + x * 9 + d)]]
      | none => []

/-- The variable-encoding formula `id(r,c,d) = r*81 + c*9 + d` used throughout
`sudoku_formula` and the given-digit loop. -/
def encode (r c d : Nat) : Nat := r * 81 + c * 9 + d

/-- The decoding arithmetic of `Grid::solve`:
`digit = id % 9`, `x = (id % 81) / 9`, `y = id / 81`. -/
def decode (id : Nat) : Nat × Nat × Nat := (id / 81, (id % 81) / 9, id % 9)

/-- The flat cell index written by the decoder: `y * 9 + x` for the decoded
row and column of variable `id`. -/
def cellIndex (id : Nat) : Nat := id / 81 * 9 + (id % 81) / 9

/-- One iteration of the decoding loop of `Grid::solve` for a positive
variable `id`: write `some (id % 9)` at `cells[y*9+x]`; if the cell already
held a different digit the source hits `unreachable!`, modelled as `none`. -/
def decodeStep (cells : List Cell) (id : Nat) : Option (List Cell) :=
  match cells.getD (cellIndex id) none with
  | some prev =>
    if prev ≠ id % 9 then none
    else some (cells.set (cellIndex id) (some (id % 9)))
  | none => some (cells.set (cellIndex id) (some (id % 9)))

/-- The decoding loop folded over a list of variable indices: indices the
assignment makes positive are decoded, the rest are skipped; a conflict
(`none`) is final. -/
def decodeFold (A : Nat → Bool) (acc : Option (List Cell)) (ids : List Nat) :
    Option (List Cell) :=
  ids.foldl
    (fun st id =>
      match st with
      | none => none
      | some cs => if A id then decodeStep cs id else some cs)
    acc

/-- Decoding the first `k` variables of the model. -/
def decodePrefix (A : Nat → Bool) (cells : List Cell) (k : Nat) :
    Option (List Cell) :=
  decodeFold A (some cells) (List.range k)

/-- The full decoding pass of `Grid::solve`: the solver's model assigns all
729 variables of the formula, and the loop processes them in index order. -/
def decodeModel (A : Nat → Bool) (cells : List Cell) : Option (List Cell) :=
  decodeFold A (some cells) (List.range 729)

/-- The answer of the external SAT engine: a total assignment, or
unsatisfiable. -/
inductive SolveResult where
  | sat (A : Nat → Bool)
  | unsat

/-- What `Grid::solve` can do: return a grid (`Ok`), report no solution
(`Err(())`), or abort on the internal-consistency `unreachable!`. -/
inductive SolveOutcome where
  | ok (g : Grid)
  | noSolution
  | fatal
deriving DecidableEq

/-- The tail of `Grid::solve`: a completed decode returns `Ok(self)`, a
conflict is the `unreachable!` abort. -/
def decodeOutcome : Option (List Cell) → SolveOutcome
  | none => .fatal
  | some cs => .ok ⟨cs⟩

/-- `Grid::solve`, with the external solver abstracted as an oracle answer
for the formula `sudoku_formula ++ givenClauses self`. -/
def Grid.solve (g : Grid) : SolveResult → SolveOutcome
  | .unsat => .noSolution
  | .sat A => decodeOutcome (decodeModel A g.cells)

/-- The oracle contract of the solver adapter: a `sat` answer comes with a
model of every input clause, an `unsat` answer means no assignment is a
model. -/
def SolveResult.correctFor (res : SolveResult) (F : List Clause) : Prop :=
  match res with
  | .sat A => satFormula A F = true
  | .unsat => ∀ A, satFormula A F = false

/-- One character of `Grid::from_str`: `'1'..='9'` parses to the digit minus
one, `' '` to an empty cell, anything else is an error. (`to_digit(10)` is
total on `'1'..='9'`, so the `ok_or_else` branch of the source is dead.) -/
def parseChar (c : Char) : Except String Cell :=
  if '1' ≤ c ∧ c ≤ '9' then .ok (some (c.toNat - '0'.toNat - 1))
  else if c = ' ' then .ok none
  else .error ("invalid character " ++ toString c)

/-- The character-by-character collect of `Grid::from_str`: the first error
wins, otherwise the list of parsed cells. -/
def parseCells : List Char → Except String (List Cell)
  | [] => .ok []
  | c :: rest =>
    match parseChar c with
    | .error e => .error e
    | .ok cell =>
      match parseCells rest with
      | .error e => .error e
      | .ok cells => .ok (cell :: cells)

/-- `Grid::from_str`: parse every character, then the `try_into` to a
81-element array fails unless exactly 81 cells were parsed. -/
def Grid.from_str (s : String) : Except String Grid :=
  match parseCells s.data with
  | .error e => .error e
  | .ok cs =>
    if cs.length = 81 then .ok ⟨cs⟩
    else .error ("failed to convert (" ++ toString cs.length ++ ")")

/-- The grid invariant of the data model: exactly 81 cells, and every filled
cell holds a zero-based digit in `[0, 8]`. -/
def Grid.wf (g : Grid) : Prop :=
  g.cells.length = 81 ∧ ∀ c ∈ g.cells, ∀ p, c = some p → p < 9

/-- Every cell of the grid is filled. -/
def Grid.filled (g : Grid) : Prop := ∀ j < 81, g.cells.getD j none ≠ none

/-- Every row contains every digit at least once and at most once. -/
def Grid.rowsValid (g : Grid) : Prop :=
  ∀ y < 9, ∀ d < 9,
    (∃ x < 9, g.get x y = some d) ∧
      ∀ x < 9, ∀ x2 < 9, g.get x y = some d → g.get x2 y = some d → x = x2

/-- Every column contains every digit at least once and at most once. -/
def Grid.colsValid (g : Grid) : Prop :=
  ∀ x < 9, ∀ d < 9,
    (∃ y < 9, g.get x y = some d) ∧
      ∀ y < 9, ∀ y2 < 9, g.get x y = some d → g.get x y2 = some d → y = y2

/-- Every 3x3 block contains every digit at least once and at most once; the
cell of block `b` at in-block position `i` is column `b % 3 * 3 + i % 3`,
row `b / 3 * 3 + i / 3`. -/
def Grid.blocksValid (g : Grid) : Prop :=
  ∀ b < 9, ∀ d < 9,
    (∃ i < 9, g.get (b % 3 * 3 + i % 3) (b / 3 * 3 + i / 3) = some d) ∧
      ∀ i < 9, ∀ i2 < 9,
        g.get (b % 3 * 3 + i % 3) (b / 3 * 3 + i / 3) = some d →
        g.get (b % 3 * 3 + i2 % 3) (b / 3 * 3 + i2 / 3) = some d → i = i2

/-- The variable naming a digit for flat cell index `j`:
`(j / 9) * 81 + (j % 9) * 9 + d`, i.e. `encode` of the cell's row and
column. -/
def cellVar (j d : Nat) : Nat := j / 9 * 81 + j % 9 * 9 + d

/-- The digit the assignment selects for flat cell index `j`: the first `d`
with `A (cellVar j d) = true` (and `8` when none is, a case ruled out by the
coverage clauses). -/
def theDigit (A : Nat → Bool) (j : Nat) : Nat :=
  if A (cellVar j 0) then 0
  else if A (cellVar j 1) then 1
  else if A (cellVar j 2) then 2
  else if A (cellVar j 3) then 3
  else if A (cellVar j 4) then 4
  else if A (cellVar j 5) then 5
  else if A (cellVar j 6) then 6
  else if A (cellVar j 7) then 7
  else 8

/-- The all-blank grid. -/
def emptyGrid : Grid := ⟨List.replicate 81 none⟩

/-! ## Basic satisfaction lemmas -/

lemma satFormula_append {A : Nat → Bool} {F1 F2 : List Clause} :
    satFormula A (F1 ++ F2) = true ↔
      satFormula A F1 = true ∧ satFormula A F2 = true := by
  simp [satFormula, List.all_append]

lemma satFormula_flatMap_range {A : Nat → Bool} {n : Nat} {f : Nat → List Clause} :
    satFormula A ((List.range n).flatMap f) = true ↔
      ∀ i < n, satFormula A (f i) = true := by
  constructor
  · intro h i hi
    rw [satFormula, List.all_eq_true] at h ⊢
    intro c hc
    exact h c (List.mem_flatMap.mpr ⟨i, List.mem_range.mpr hi, hc⟩)
  · intro h
    rw [satFormula, List.all_eq_true]
    intro c hc
    obtain ⟨i, hi, hci⟩ := List.mem_flatMap.mp hc
    have hfi := h i (List.mem_range.mp hi)
    rw [satFormula, List.all_eq_true] at hfi
    exact hfi c hci

lemma satFormula_singleton {A : Nat → Bool} {c : Clause} :
    satFormula A [c] = true ↔ clauseSat A c = true := by
  simp [satFormula]

lemma satFormula_map_filter_range {A : Nat → Bool} {n : Nat} {p : Nat → Bool}
    {g : Nat → Clause} :
    satFormula A (((List.range n).filter p).map g) = true ↔
      ∀ i < n, p i = true → clauseSat A (g i) = true := by
  constructor
  · intro h i hi hp
    rw [satFormula, List.all_eq_true] at h
    exact h (g i) (List.mem_map.mpr ⟨i, List.mem_filter.mpr ⟨List.mem_range.mpr hi, hp⟩, rfl⟩)
  · intro h
    rw [satFormula, List.all_eq_true]
    intro c hc
    obtain ⟨i, hif, rfl⟩ := List.mem_map.mp hc
    obtain ⟨hir, hip⟩ := List.mem_filter.mp hif
    exact h i (List.mem_range.mp hir) hip

lemma clauseSat_pair_neg {A : Nat → Bool} {u v : Nat} :
    clauseSat A [negLit u, negLit v] = true ↔ (A u = false ∨ A v = false) := by
  simp [clauseSat, litSat, negLit]

lemma clauseSat_unit_pos {A : Nat → Bool} {u : Nat} :
    clauseSat A [posLit u] = true ↔ A u = true := by
  simp [clauseSat, litSat, posLit]

lemma clauseSat_cov {A : Nat → Bool} {y x : Nat} :
    clauseSat A (cellCovClause y x) = true ↔
      ∃ d < 9, A (y * 81 + x * 9 + d) = true := by
  simp [clauseSat, cellCovClause, litSat, posLit, List.any_eq_true, List.mem_map,
    List.mem_range]

/-! ## Per-family characterizations of satisfaction -/

lemma sat_cellUniq_iff {A : Nat → Bool} {y x : Nat} :
    satFormula A (cellUniqClauses y x) = true ↔
      ∀ a < 9, ∀ b < 9, a < b →
        (A (y * 81 + x * 9 + a) = false ∨ A (y * 81 + x * 9 + b) = false) := by
  simp only [cellUniqClauses, satFormula_flatMap_range, satFormula_map_filter_range,
    clauseSat_pair_neg, decide_eq_true_eq]

lemma sat_cellClauses_iff {A : Nat → Bool} :
    satFormula A cellClauses = true ↔
      ∀ y < 9, ∀ x < 9,
        (∀ a < 9, ∀ b < 9, a < b →
            (A (y * 81 + x * 9 + a) = false ∨ A (y * 81 + x * 9 + b) = false)) ∧
          ∃ d < 9, A (y * 81 + x * 9 + d) = true := by
  simp only [cellClauses, satFormula_flatMap_range, satFormula_append,
    satFormula_singleton, sat_cellUniq_iff, clauseSat_cov]

lemma sat_cellUniquenessClauses_iff {A : Nat → Bool} :
    satFormula A cellUniquenessClauses = true ↔
      ∀ y < 9, ∀ x < 9, ∀ a < 9, ∀ b < 9, a < b →
        (A (y * 81 + x * 9 + a) = false ∨ A (y * 81 + x * 9 + b) = false) := by
  simp only [cellUniquenessClauses, satFormula_flatMap_range, sat_cellUniq_iff]

lemma sat_rowClauses_iff {A : Nat → Bool} :
    satFormula A rowClauses = true ↔
      ∀ y < 9, ∀ x < 9, ∀ d < 9, ∀ x2 < 9, x ≠ x2 →
        (A (y * 81 + x * 9 + d) = false ∨ A (y * 81 + x2 * 9 + d) = false) := by
  simp only [rowClauses, satFormula_flatMap_range, satFormula_map_filter_range,
    clauseSat_pair_neg, bne_iff_ne]

lemma sat_columnClauses_iff {A : Nat → Bool} :
    satFormula A columnClauses = true ↔
      ∀ x < 9, ∀ y < 9, ∀ d < 9, ∀ y2 < 9, y ≠ y2 →
        (A (y * 81 + x * 9 + d) = false ∨ A (y2 * 81 + x * 9 + d) = false) := by
  simp only [columnClauses, satFormula_flatMap_range, satFormula_map_filter_range,
    clauseSat_pair_neg, bne_iff_ne]

lemma sat_blockClauses_iff {A : Nat → Bool} :
    satFormula A blockClauses = true ↔
      ∀ b < 9, ∀ i < 9, ∀ d < 9, ∀ i2 < 9, i ≠ i2 →
        (A ((b / 3 * 3 + i / 3) * 81 + (b % 3 * 3 + i % 3) * 9 + d) = false ∨
          A ((b / 3 * 3 + i2 / 3) * 81 + (b % 3 * 3 + i2 % 3) * 9 + d) = false) := by
  simp only [blockClauses, satFormula_flatMap_range, satFormula_map_filter_range,
    clauseSat_pair_neg, bne_iff_ne]

lemma sat_givenClauses_iff {A : Nat → Bool} {g : Grid} :
    satFormula A (givenClauses g) = true ↔
      ∀ y < 9, ∀ x < 9, ∀ d, g.get x y = some d → A (y * 81 + x * 9 + d) = true := by
  simp only [givenClauses, satFormula_flatMap_range]
  constructor
  · intro h y hy x hx d hd
    have := h y hy x hx
    rw [hd] at this
    rw [satFormula_singleton, clauseSat_unit_pos] at this
    exact this
  · intro h y hy x hx
    cases hgd : g.get x y with
    | none => simp [satFormula]
    | some d =>
      rw [satFormula_singleton, clauseSat_unit_pos]
      exact h y hy x hx d hgd

lemma sat_sudoku_formula_iff {A : Nat → Bool} :
    satFormula A sudoku_formula = true ↔
      satFormula A cellClauses = true ∧ satFormula A rowClauses = true ∧
        satFormula A columnClauses = true ∧ satFormula A blockClauses = true := by
  simp only [sudoku_formula, satFormula_append, and_assoc]

/-! ## Clause counting -/

lemma length_flatMap_range_const {α : Type} (f : Nat → List α) (n L : Nat)
    (h : ∀ i < n, (f i).length = L) : ((List.range n).flatMap f).length = n * L := by
  induction n with
  | zero => simp
  | succ m ih =>
    rw [List.range_succ, List.flatMap_append, List.length_append,
      ih (fun i hi => h i (Nat.lt_succ_of_lt hi))]
    have hm := h m (Nat.lt_succ_self m)
    simp [hm]
    ring

lemma filter_ne_length : ∀ x < 9, ((List.range 9).filter fun x2 => x != x2).length = 8 := by
  decide

lemma rowClauses_length : rowClauses.length = 5832 := by
  unfold rowClauses
  show _ = 9 * 648
  apply length_flatMap_range_const
  intro y hy
  show _ = 9 * 72
  apply length_flatMap_range_const
  intro x hx
  show _ = 9 * 8
  apply length_flatMap_range_const
  intro d hd
  rw [List.length_map]
  exact filter_ne_length x hx

lemma columnClauses_length : columnClauses.length = 5832 := by
  unfold columnClauses
  show _ = 9 * 648
  apply length_flatMap_range_const
  intro x hx
  show _ = 9 * 72
  apply length_flatMap_range_const
  intro y hy
  show _ = 9 * 8
  apply length_flatMap_range_const
  intro d hd
  rw [List.length_map]
  exact filter_ne_length y hy

lemma blockClauses_length : blockClauses.length = 5832 := by
  unfold blockClauses
  show _ = 9 * 648
  apply length_flatMap_range_const
  intro b hb
  show _ = 9 * 72
  apply length_flatMap_range_const
  intro i hi
  show _ = 9 * 8
  apply length_flatMap_range_const
  intro d hd
  rw [List.length_map]
  exact filter_ne_length i hi

/-- The group-exclusivity part of the formula has 17496 clauses: each of the
27 groups contributes, per digit, both orderings of each of the 36 unordered
pairs of distinct cells. -/
lemma groupClauses_length :
    (rowClauses ++ columnClauses ++ blockClauses).length = 17496 := by
  rw [List.length_append, List.length_append, rowClauses_length,
    columnClauses_length, blockClauses_length]

/-! ## C1: the variable indexing scheme is a bijection -/

/-- C1: `id(r,c,d) = r*81 + c*9 + d` is a bijection between triples with
`r, c, d < 9` and identifiers below 729: decoding an encoded triple returns
the triple, and encoding a decoded identifier returns the identifier. -/
theorem claim_C1_bijection (r c d id : Nat)
    (hr : r < 9) (hc : c < 9) (hd : d < 9) (hid : id < 729) :
    decode (encode r c d) = (r, c, d) ∧
      encode (decode id).1 (decode id).2.1 (decode id).2.2 = id := by
  unfold encode decode
  refine ⟨?_, ?_⟩
  · simp only [Prod.mk.injEq]
    refine ⟨?_, ?_, ?_⟩ <;> omega
  · simp only
    omega

/-- C1 witness: the bijection at the concrete triple `(0,1,2)` and id `5`. -/
theorem claim_C1_witness :
    decode (encode 0 1 2) = (0, 1, 2) ∧
      encode (decode 5).1 (decode 5).2.1 (decode 5).2.2 = 5 :=
  claim_C1_bijection 0 1 2 5 (by decide) (by decide) (by decide) (by decide)

/-! ## C5: the group-exclusivity clause count -/

/-- C5 counterexample: the group-exclusivity portion does not have 8748
clauses (the source generates ordered pairs, doubling the count). -/
theorem claim_C5_counterexample :
    ¬ (rowClauses ++ columnClauses ++ blockClauses).length = 8748 := by
  rw [groupClauses_length]
  omega

/-- C5 (amended): the group-exclusivity portion of the formula consists of
exactly 17496 clauses — 27 groups, 9 digits, and 72 ordered pairs of distinct
cells per group, both orderings generated. -/
theorem claim_C5_group_clause_count :
    (rowClauses ++ columnClauses ++ blockClauses).length = 17496 :=
  groupClauses_length

/-! ## C4: unset cells after decoding -/

set_option maxRecDepth 3000 in
/-- C4 counterexample: with an assignment that makes no literal positive,
`Grid::solve` on the blank grid returns `Ok` with every cell still unset —
it does not halt fatally on unset cells. -/
theorem claim_C4_counterexample :
    Grid.solve emptyGrid (.sat fun _ => false) = .ok emptyGrid ∧
      emptyGrid.cells.getD 0 none = none := by
  refine ⟨by decide, rfl⟩

/-- C4 (amended): cells left unset after processing all positive literals do
not make `Grid::solve` halt: whenever the decoding pass completes without a
digit conflict, `Grid::solve` returns `Ok` with exactly the decoded cells,
unset cells keeping their input values. -/
theorem claim_C4_unset_cells_returned (g : Grid) (A : Nat → Bool)
    (cs : List Cell) (h : decodeModel A g.cells = some cs) :
    Grid.solve g (.sat A) = .ok ⟨cs⟩ := by
  simp only [Grid.solve]
  rw [h]
  rfl

set_option maxRecDepth 3000 in
/-- C4 witness: the no-positive-literals decoding completes and `solve`
returns the untouched blank cells. -/
theorem claim_C4_witness :
    Grid.solve emptyGrid (.sat fun _ => false) = .ok ⟨List.replicate 81 none⟩ :=
  claim_C4_unset_cells_returned emptyGrid (fun _ => false)
    (List.replicate 81 none) (by decide)

/-! ## C7: parsing -/

lemma parseChar_ok_iff (c : Char) :
    (∃ cell, parseChar c = .ok cell) ↔ (c = ' ' ∨ ('1' ≤ c ∧ c ≤ '9')) := by
  unfold parseChar
  split_ifs with h1 h2
  · exact iff_of_true ⟨_, rfl⟩ (Or.inr h1)
  · exact iff_of_true ⟨_, rfl⟩ (Or.inl h2)
  · constructor
    · rintro ⟨cell, hcell⟩
      cases hcell
    · rintro (h | h)
      · exact absurd h h2
      · exact absurd h h1

lemma parseCells_ok_length {l : List Char} {cs : List Cell}
    (h : parseCells l = .ok cs) : cs.length = l.length := by
  induction l generalizing cs with
  | nil =>
    rw [parseCells] at h
    cases h
    rfl
  | cons c rest ih =>
    rw [parseCells] at h
    cases hpc : parseChar c with
    | error e => rw [hpc] at h; cases h
    | ok cell =>
      rw [hpc] at h
      cases hpr : parseCells rest with
      | error e => rw [hpr] at h; cases h
      | ok cells =>
        rw [hpr] at h
        cases h
        simp [ih hpr]

lemma parseCells_ok_iff (l : List Char) :
    (∃ cs, parseCells l = .ok cs) ↔
      ∀ c ∈ l, c = ' ' ∨ ('1' ≤ c ∧ c ≤ '9') := by
  induction l with
  | nil => simp [parseCells]
  | cons c rest ih =>
    rw [parseCells]
    constructor
    · rintro ⟨cs, hcs⟩
      cases hpc : parseChar c with
      | error e => rw [hpc] at hcs; cases hcs
      | ok cell =>
        rw [hpc] at hcs
        cases hpr : parseCells rest with
        | error e => rw [hpr] at hcs; cases hcs
        | ok cells =>
          intro a ha
          rcases List.mem_cons.mp ha with rfl | ha
          · exact (parseChar_ok_iff a).mp ⟨cell, hpc⟩
          · exact (ih.mp ⟨cells, hpr⟩) a ha
    · intro hvalid
      obtain ⟨cell, hpc⟩ := (parseChar_ok_iff c).mpr (hvalid c (List.mem_cons_self c rest))
      obtain ⟨cells, hpr⟩ := ih.mpr fun a ha => hvalid a (List.mem_cons_of_mem c ha)
      exact ⟨cell :: cells, by rw [hpc, hpr]⟩

/-- C7: parsing succeeds exactly when the input is 81 characters long and
every character is a space or a digit `1`-`9`; otherwise `Grid::from_str`
returns an error. -/
theorem claim_C7_parse_characterization (s : String) :
    (∃ g, Grid.from_str s = .ok g) ↔
      (s.data.length = 81 ∧ ∀ c ∈ s.data, c = ' ' ∨ ('1' ≤ c ∧ c ≤ '9')) := by
  unfold Grid.from_str
  cases hp : parseCells s.data with
  | error e =>
    constructor
    · rintro ⟨g, hg⟩
      cases hg
    · rintro ⟨hlen, hvalid⟩
      obtain ⟨cs, hcs⟩ := (parseCells_ok_iff s.data).mpr hvalid
      rw [hp] at hcs
      cases hcs
  | ok cs =>
    dsimp only
    have hlen := parseCells_ok_length hp
    have hvalid := (parseCells_ok_iff s.data).mp ⟨cs, hp⟩
    constructor
    · rintro ⟨g, hg⟩
      by_cases h81 : cs.length = 81
      · exact ⟨by omega, hvalid⟩
      · rw [if_neg h81] at hg
        exact Except.noConfusion hg
    · rintro ⟨h81, hv⟩
      refine ⟨⟨cs⟩, ?_⟩
      rw [if_pos (by omega)]

/-- C7 witness: the iff at the 81-space string (which parses to the blank
grid) — the left-hand side of the iff is inhabited there. -/
theorem claim_C7_witness :
    (∃ g, Grid.from_str (String.mk (List.replicate 81 ' ')) = .ok g) ↔
      ((String.mk (List.replicate 81 ' ')).data.length = 81 ∧
        ∀ c ∈ (String.mk (List.replicate 81 ' ')).data,
          c = ' ' ∨ ('1' ≤ c ∧ c ≤ '9')) :=
  claim_C7_parse_characterization (String.mk (List.replicate 81 ' '))

/-! ## C6: unsatisfiable givens -/

/-- The grid of the claim: cells `(0,0)` and `(0,1)` both hold the digit
displayed as `5` (stored zero-based as `4`), all other cells blank. -/
def unsatGrid : Grid := ⟨some 4 :: some 4 :: List.replicate 79 none⟩

set_option maxRecDepth 3000 in
lemma unsatGrid_unsat :
    ∀ A, satFormula A (sudoku_formula ++ givenClauses unsatGrid) = false := by
  intro A
  by_contra hne
  have hT : satFormula A (sudoku_formula ++ givenClauses unsatGrid) = true := by
    revert hne
    cases satFormula A (sudoku_formula ++ givenClauses unsatGrid) <;> simp
  obtain ⟨hF, hG⟩ := satFormula_append.mp hT
  have hrowF := (sat_sudoku_formula_iff.mp hF).2.1
  have hrow := sat_rowClauses_iff.mp hrowF 0 (by norm_num) 0 (by norm_num) 4
    (by norm_num) 1 (by norm_num) (by norm_num)
  rw [sat_givenClauses_iff] at hG
  have h4 := hG 0 (by norm_num) 0 (by norm_num) 4 (by decide)
  have h13 := hG 0 (by norm_num) 1 (by norm_num) 4 (by decide)
  norm_num at hrow h4 h13
  rcases hrow with h | h <;> simp_all

/-- C6: for any grid whose clause set (formula plus given-digit unit clauses)
no assignment satisfies, a correct solver answer makes `Grid::solve` return
the no-solution result — never a completed grid and never the fatal abort. -/
theorem claim_C6_unsat_detection (g : Grid) (res : SolveResult)
    (hunsat : ∀ A, satFormula A (sudoku_formula ++ givenClauses g) = false)
    (hres : res.correctFor (sudoku_formula ++ givenClauses g)) :
    Grid.solve g res = .noSolution := by
  cases res with
  | unsat => rfl
  | sat A =>
    exfalso
    have hfalse := hunsat A
    rw [SolveResult.correctFor] at hres
    rw [hres] at hfalse
    cases hfalse

/-- C6 witness: the double-5 grid of the claim is unsatisfiable, so the
correct oracle answer is `unsat` and `Grid::solve` reports no solution. -/
theorem claim_C6_witness : Grid.solve unsatGrid .unsat = .noSolution :=
  claim_C6_unsat_detection unsatGrid .unsat unsatGrid_unsat unsatGrid_unsat

/-! ## Decoding machinery -/

lemma getD_set_self {l : List Cell} {i : Nat} {a : Cell} (h : i < l.length) :
    (l.set i a).getD i none = a := by
  rw [List.getD_eq_getElem?_getD, List.getElem?_set_self h]
  rfl

lemma getD_set_ne {l : List Cell} {i j : Nat} {a : Cell} (h : i ≠ j) :
    (l.set i a).getD j none = l.getD j none := by
  rw [List.getD_eq_getElem?_getD, List.getElem?_set_ne h, ← List.getD_eq_getElem?_getD]

lemma decodeFold_nil (A : Nat → Bool) (acc : Option (List Cell)) :
    decodeFold A acc [] = acc := rfl

lemma decodeFold_cons (A : Nat → Bool) (cs : List Cell) (id : Nat) (rest : List Nat) :
    decodeFold A (some cs) (id :: rest) =
      decodeFold A (if A id then decodeStep cs id else some cs) rest := rfl

lemma decodeFold_none_acc (A : Nat → Bool) : ∀ ids, decodeFold A none ids = none
  | [] => rfl
  | _ :: rest => decodeFold_none_acc A rest

lemma theDigit_lt (A : Nat → Bool) (j : Nat) : theDigit A j < 9 := by
  unfold theDigit
  split_ifs <;> norm_num

lemma theDigit_true {A : Nat → Bool} {j : Nat}
    (hcov : ∃ d < 9, A (cellVar j d) = true) :
    A (cellVar j (theDigit A j)) = true := by
  unfold theDigit
  split_ifs with h0 h1 h2 h3 h4 h5 h6 h7
  · exact h0
  · exact h1
  · exact h2
  · exact h3
  · exact h4
  · exact h5
  · exact h6
  · exact h7
  · obtain ⟨d, hd, hdt⟩ := hcov
    interval_cases d <;> simp_all

lemma theDigit_eq {A : Nat → Bool} {j d : Nat}
    (huniq : ∀ a < 9, ∀ b < 9, a ≠ b →
      (A (cellVar j a) = false ∨ A (cellVar j b) = false))
    (hd : d < 9) (ht : A (cellVar j d) = true) : theDigit A j = d := by
  by_contra hne
  have h1 := theDigit_true ⟨d, hd, ht⟩
  rcases huniq (theDigit A j) (theDigit_lt A j) d hd hne with h | h
  · rw [h1] at h
    exact Bool.noConfusion h
  · rw [ht] at h
    exact Bool.noConfusion h

lemma uniq_cellVar {A : Nat → Bool}
    (h : ∀ y < 9, ∀ x < 9, ∀ a < 9, ∀ b < 9, a < b →
      (A (y * 81 + x * 9 + a) = false ∨ A (y * 81 + x * 9 + b) = false)) :
    ∀ j < 81, ∀ a < 9, ∀ b < 9, a ≠ b →
      (A (cellVar j a) = false ∨ A (cellVar j b) = false) := by
  intro j hj a ha b hb hne
  have hy : j / 9 < 9 := by omega
  have hx : j % 9 < 9 := by omega
  rcases Nat.lt_or_ge a b with hab | hab
  · exact h (j / 9) hy (j % 9) hx a ha b hb hab
  · have hba : b < a := by omega
    exact (h (j / 9) hy (j % 9) hx b hb a ha hba).symm

lemma cov_cellVar {A : Nat → Bool}
    (h : ∀ y < 9, ∀ x < 9, ∃ d < 9, A (y * 81 + x * 9 + d) = true) :
    ∀ j < 81, ∃ d < 9, A (cellVar j d) = true := by
  intro j hj
  exact h (j / 9) (by omega) (j % 9) (by omega)

lemma given_cellVar {A : Nat → Bool} {g : Grid}
    (h : ∀ y < 9, ∀ x < 9, ∀ d, g.get x y = some d → A (y * 81 + x * 9 + d) = true) :
    ∀ j < 81, ∀ p, g.cells.getD j none = some p → A (cellVar j p) = true := by
  intro j hj p hp
  have hidx : j / 9 * 9 + j % 9 = j := by omega
  have hget : g.get (j % 9) (j / 9) = some p := by
    rw [Grid.get, hidx]
    exact hp
  exact h (j / 9) (by omega) (j % 9) (by omega) p hget

/-- The decoding loop, processed over any id list: if every positive id
agrees with the digit function `D` on its target cell, targets cells in
range, and never contradicts the initial cell contents, then decoding
completes without conflict and each cell holds `D` of its index exactly when
some positive id targeted it, its initial value otherwise. -/
lemma decodeFold_ok (A : Nat → Bool) (D : Nat → Nat) :
    ∀ (ids : List Nat) (cs : List Cell),
      (∀ id ∈ ids, A id = true →
          id % 9 = D (cellIndex id) ∧ cellIndex id < cs.length ∧
            (cs.getD (cellIndex id) none = none ∨
              cs.getD (cellIndex id) none = some (D (cellIndex id)))) →
      ∃ cs2, decodeFold A (some cs) ids = some cs2 ∧ cs2.length = cs.length ∧
        ∀ j, cs2.getD j none =
          if ids.any (fun id => A id && (cellIndex id == j)) then some (D j)
          else cs.getD j none := by
  intro ids
  induction ids with
  | nil =>
    intro cs _
    exact ⟨cs, rfl, rfl, fun j => by simp⟩
  | cons id rest ih =>
    intro cs h
    by_cases hA : A id = true
    · obtain ⟨hdig, hlt, hcell⟩ := h id (List.mem_cons_self id rest) hA
      have hstep : decodeStep cs id = some (cs.set (cellIndex id) (some (id % 9))) := by
        unfold decodeStep
        rcases hcell with hc | hc
        · simp only [hc]
        · simp only [hc]
          rw [if_neg fun hne => hne hdig.symm]
      have hfold : decodeFold A (some cs) (id :: rest) =
          decodeFold A (some (cs.set (cellIndex id) (some (id % 9)))) rest := by
        rw [decodeFold_cons, if_pos hA, hstep]
      have hrest : ∀ id2 ∈ rest, A id2 = true →
          id2 % 9 = D (cellIndex id2) ∧
            cellIndex id2 < (cs.set (cellIndex id) (some (id % 9))).length ∧
            ((cs.set (cellIndex id) (some (id % 9))).getD (cellIndex id2) none = none ∨
              (cs.set (cellIndex id) (some (id % 9))).getD (cellIndex id2) none =
                some (D (cellIndex id2))) := by
        intro id2 hid2 hA2
        obtain ⟨hdig2, hlt2, hcell2⟩ := h id2 (List.mem_cons_of_mem id hid2) hA2
        refine ⟨hdig2, by rw [List.length_set]; exact hlt2, ?_⟩
        by_cases hij : cellIndex id = cellIndex id2
        · right
          rw [← hij, getD_set_self hlt, hdig, hij]
        · rw [getD_set_ne hij]
          exact hcell2
      obtain ⟨cs2, hcs2, hlen2, hget2⟩ := ih (cs.set (cellIndex id) (some (id % 9))) hrest
      refine ⟨cs2, by rw [hfold]; exact hcs2, by rw [hlen2, List.length_set], ?_⟩
      intro j
      rw [hget2 j]
      by_cases hj : cellIndex id = j
      · have hanyT : (id :: rest).any (fun id2 => A id2 && (cellIndex id2 == j)) = true := by
          simp [List.any_cons, hA, hj]
        have hsetj : (cs.set (cellIndex id) (some (id % 9))).getD j none = some (D j) := by
          rw [← hj, getD_set_self hlt, hdig, hj]
        rw [hsetj, ite_self, if_pos hanyT]
      · have hany_eq : (id :: rest).any (fun id2 => A id2 && (cellIndex id2 == j)) =
            rest.any (fun id2 => A id2 && (cellIndex id2 == j)) := by
          simp [List.any_cons, hj]
        rw [getD_set_ne hj, hany_eq]
    · have hAf : A id = false := by
        revert hA
        cases A id <;> simp
      have hfold : decodeFold A (some cs) (id :: rest) = decodeFold A (some cs) rest := by
        rw [decodeFold_cons, if_neg hA]
      obtain ⟨cs2, h1, h2, h3⟩ := ih cs fun id2 hid2 => h id2 (List.mem_cons_of_mem id hid2)
      refine ⟨cs2, by rw [hfold]; exact h1, h2, ?_⟩
      intro j
      rw [h3 j]
      have hany_eq : (id :: rest).any (fun id2 => A id2 && (cellIndex id2 == j)) =
          rest.any (fun id2 => A id2 && (cellIndex id2 == j)) := by
        simp [List.any_cons, hAf]
      rw [hany_eq]

lemma cellVar_cellIndex {id : Nat} (h : id < 729) :
    cellVar (cellIndex id) (id % 9) = id := by
  unfold cellVar cellIndex
  omega

lemma cellIndex_cellVar {j t : Nat} (hj : j < 81) (ht : t < 9) :
    cellIndex (cellVar j t) = j := by
  unfold cellVar cellIndex
  omega

lemma cellVar_lt {j t : Nat} (hj : j < 81) (ht : t < 9) : cellVar j t < 729 := by
  unfold cellVar
  omega

lemma cellIndex_lt {id : Nat} (h : id < 729) : cellIndex id < 81 := by
  unfold cellIndex
  omega

lemma cellVar_row {y x : Nat} (hx : x < 9) (t : Nat) :
    cellVar (y * 9 + x) t = y * 81 + x * 9 + t := by
  unfold cellVar
  omega

lemma cellVar_block {b i : Nat} (hb : b < 9) (hi : i < 9) (t : Nat) :
    cellVar ((b / 3 * 3 + i / 3) * 9 + (b % 3 * 3 + i % 3)) t =
      (b / 3 * 3 + i / 3) * 81 + (b % 3 * 3 + i % 3) * 9 + t := by
  unfold cellVar
  omega

lemma solve_sat_of_decode {g : Grid} {A : Nat → Bool} {cs : List Cell}
    (h : decodeModel A g.cells = some cs) : Grid.solve g (.sat A) = .ok ⟨cs⟩ := by
  simp only [Grid.solve]
  rw [h]
  rfl

lemma solve_sat_of_conflict {g : Grid} {A : Nat → Bool}
    (h : decodeModel A g.cells = none) : Grid.solve g (.sat A) = .fatal := by
  simp only [Grid.solve]
  rw [h]
  rfl

/-- Under cell uniqueness and consistency with the given digits, the decoding
pass never hits the conflict branch, and each cell ends up holding the
assignment's digit for it when some positive literal targeted it. -/
lemma decodeModel_no_conflict {g : Grid} {A : Nat → Bool}
    (hlen : g.cells.length = 81)
    (hdig9 : ∀ j < 81, ∀ p, g.cells.getD j none = some p → p < 9)
    (huniqA : ∀ j < 81, ∀ a < 9, ∀ b < 9, a ≠ b →
      (A (cellVar j a) = false ∨ A (cellVar j b) = false))
    (hgivA : ∀ j < 81, ∀ p, g.cells.getD j none = some p → A (cellVar j p) = true) :
    ∃ cs2, decodeModel A g.cells = some cs2 ∧ cs2.length = 81 ∧
      ∀ j, cs2.getD j none =
        if (List.range 729).any (fun id => A id && (cellIndex id == j))
        then some (theDigit A j) else g.cells.getD j none := by
  have hids : ∀ id ∈ List.range 729, A id = true →
      id % 9 = theDigit A (cellIndex id) ∧ cellIndex id < g.cells.length ∧
        (g.cells.getD (cellIndex id) none = none ∨
          g.cells.getD (cellIndex id) none = some (theDigit A (cellIndex id))) := by
    intro id hid hA
    have hid729 : id < 729 := List.mem_range.mp hid
    have hj : cellIndex id < 81 := cellIndex_lt hid729
    have hAvar : A (cellVar (cellIndex id) (id % 9)) = true := by
      rw [cellVar_cellIndex hid729]
      exact hA
    refine ⟨(theDigit_eq (huniqA (cellIndex id) hj) (by omega) hAvar).symm, by omega, ?_⟩
    cases hc : g.cells.getD (cellIndex id) none with
    | none => exact Or.inl rfl
    | some p =>
      right
      have hp9 := hdig9 (cellIndex id) hj p hc
      have hAp := hgivA (cellIndex id) hj p hc
      rw [theDigit_eq (huniqA (cellIndex id) hj) hp9 hAp]
  obtain ⟨cs2, h1, h2, h3⟩ := decodeFold_ok A (theDigit A) (List.range 729) g.cells hids
  exact ⟨cs2, h1, by omega, h3⟩

/-- With the coverage clauses as well, every cell of the decoded grid holds
the assignment's digit for it. -/
lemma decodeModel_complete {g : Grid} {A : Nat → Bool}
    (hlen : g.cells.length = 81)
    (hdig9 : ∀ j < 81, ∀ p, g.cells.getD j none = some p → p < 9)
    (huniqA : ∀ j < 81, ∀ a < 9, ∀ b < 9, a ≠ b →
      (A (cellVar j a) = false ∨ A (cellVar j b) = false))
    (hcovA : ∀ j < 81, ∃ d < 9, A (cellVar j d) = true)
    (hgivA : ∀ j < 81, ∀ p, g.cells.getD j none = some p → A (cellVar j p) = true) :
    ∃ cs2, decodeModel A g.cells = some cs2 ∧ cs2.length = 81 ∧
      ∀ j < 81, cs2.getD j none = some (theDigit A j) := by
  obtain ⟨cs2, h1, h2, h3⟩ := decodeModel_no_conflict hlen hdig9 huniqA hgivA
  refine ⟨cs2, h1, h2, ?_⟩
  intro j hj
  have hany : (List.range 729).any (fun id => A id && (cellIndex id == j)) = true := by
    rw [List.any_eq_true]
    refine ⟨cellVar j (theDigit A j),
      List.mem_range.mpr (cellVar_lt hj (theDigit_lt A j)), ?_⟩
    rw [theDigit_true (hcovA j hj), cellIndex_cellVar hj (theDigit_lt A j)]
    simp
  rw [h3 j, if_pos hany]

/-! ## Validity of the decoded grid -/

lemma rowsValid_of_theDigit {R : Grid} {A : Nat → Bool}
    (hR : ∀ j < 81, R.cells.getD j none = some (theDigit A j))
    (hcovA : ∀ j < 81, ∃ t < 9, A (cellVar j t) = true)
    (hrow : ∀ y < 9, ∀ x < 9, ∀ d < 9, ∀ x2 < 9, x ≠ x2 →
      (A (y * 81 + x * 9 + d) = false ∨ A (y * 81 + x2 * 9 + d) = false)) :
    R.rowsValid := by
  intro y hy d hd
  have hAcell : ∀ x < 9, A (y * 81 + x * 9 + theDigit A (y * 9 + x)) = true := by
    intro x hx
    have ht := theDigit_true (hcovA (y * 9 + x) (by omega))
    rwa [cellVar_row hx] at ht
  constructor
  · have hinj : Function.Injective
        (fun x : Fin 9 => (⟨theDigit A (y * 9 + x.val), theDigit_lt A _⟩ : Fin 9)) := by
      intro x1 x2 hf
      have ht : theDigit A (y * 9 + x1.val) = theDigit A (y * 9 + x2.val) :=
        congrArg Fin.val hf
      by_contra hne
      have hne2 : x1.val ≠ x2.val := fun h => hne (Fin.ext h)
      have hA1 := hAcell x1.val x1.isLt
      have hA2 := hAcell x2.val x2.isLt
      rw [← ht] at hA2
      rcases hrow y hy x1.val x1.isLt (theDigit A (y * 9 + x1.val))
          (theDigit_lt A _) x2.val x2.isLt hne2 with h | h
      · rw [hA1] at h
        exact Bool.noConfusion h
      · rw [hA2] at h
        exact Bool.noConfusion h
    obtain ⟨x, hx⟩ := Finite.injective_iff_surjective.mp hinj ⟨d, hd⟩
    refine ⟨x.val, x.isLt, ?_⟩
    have hxd : theDigit A (y * 9 + x.val) = d := congrArg Fin.val hx
    rw [Grid.get, hR (y * 9 + x.val) (by omega), hxd]
  · intro x hx x2 hx2 h1 h2
    rw [Grid.get, hR (y * 9 + x) (by omega)] at h1
    rw [Grid.get, hR (y * 9 + x2) (by omega)] at h2
    have hd1 : theDigit A (y * 9 + x) = d := Option.some.inj h1
    have hd2 : theDigit A (y * 9 + x2) = d := Option.some.inj h2
    by_contra hne
    have hA1 := hAcell x hx
    have hA2 := hAcell x2 hx2
    rw [hd1] at hA1
    rw [hd2] at hA2
    rcases hrow y hy x hx d hd x2 hx2 hne with h | h
    · rw [hA1] at h
      exact Bool.noConfusion h
    · rw [hA2] at h
      exact Bool.noConfusion h

lemma colsValid_of_theDigit {R : Grid} {A : Nat → Bool}
    (hR : ∀ j < 81, R.cells.getD j none = some (theDigit A j))
    (hcovA : ∀ j < 81, ∃ t < 9, A (cellVar j t) = true)
    (hcol : ∀ x < 9, ∀ y < 9, ∀ d < 9, ∀ y2 < 9, y ≠ y2 →
      (A (y * 81 + x * 9 + d) = false ∨ A (y2 * 81 + x * 9 + d) = false)) :
    R.colsValid := by
  intro x hx d hd
  have hAcell : ∀ y < 9, A (y * 81 + x * 9 + theDigit A (y * 9 + x)) = true := by
    intro y hy
    have ht := theDigit_true (hcovA (y * 9 + x) (by omega))
    rwa [cellVar_row hx] at ht
  constructor
  · have hinj : Function.Injective
        (fun y : Fin 9 => (⟨theDigit A (y.val * 9 + x), theDigit_lt A _⟩ : Fin 9)) := by
      intro y1 y2 hf
      have ht : theDigit A (y1.val * 9 + x) = theDigit A (y2.val * 9 + x) :=
        congrArg Fin.val hf
      by_contra hne
      have hne2 : y1.val ≠ y2.val := fun h => hne (Fin.ext h)
      have hA1 := hAcell y1.val y1.isLt
      have hA2 := hAcell y2.val y2.isLt
      rw [← ht] at hA2
      rcases hcol x hx y1.val y1.isLt (theDigit A (y1.val * 9 + x))
          (theDigit_lt A _) y2.val y2.isLt hne2 with h | h
      · rw [hA1] at h
        exact Bool.noConfusion h
      · rw [hA2] at h
        exact Bool.noConfusion h
    obtain ⟨y, hy⟩ := Finite.injective_iff_surjective.mp hinj ⟨d, hd⟩
    refine ⟨y.val, y.isLt, ?_⟩
    have hyd : theDigit A (y.val * 9 + x) = d := congrArg Fin.val hy
    rw [Grid.get, hR (y.val * 9 + x) (by omega), hyd]
  · intro y hy y2 hy2 h1 h2
    rw [Grid.get, hR (y * 9 + x) (by omega)] at h1
    rw [Grid.get, hR (y2 * 9 + x) (by omega)] at h2
    have hd1 : theDigit A (y * 9 + x) = d := Option.some.inj h1
    have hd2 : theDigit A (y2 * 9 + x) = d := Option.some.inj h2
    by_contra hne
    have hA1 := hAcell y hy
    have hA2 := hAcell y2 hy2
    rw [hd1] at hA1
    rw [hd2] at hA2
    rcases hcol x hx y hy d hd y2 hy2 hne with h | h
    · rw [hA1] at h
      exact Bool.noConfusion h
    · rw [hA2] at h
      exact Bool.noConfusion h

lemma blocksValid_of_theDigit {R : Grid} {A : Nat → Bool}
    (hR : ∀ j < 81, R.cells.getD j none = some (theDigit A j))
    (hcovA : ∀ j < 81, ∃ t < 9, A (cellVar j t) = true)
    (hblock : ∀ b < 9, ∀ i < 9, ∀ d < 9, ∀ i2 < 9, i ≠ i2 →
      (A ((b / 3 * 3 + i / 3) * 81 + (b % 3 * 3 + i % 3) * 9 + d) = false ∨
        A ((b / 3 * 3 + i2 / 3) * 81 + (b % 3 * 3 + i2 % 3) * 9 + d) = false)) :
    R.blocksValid := by
  intro b hb d hd
  have hAcell : ∀ i < 9,
      A ((b / 3 * 3 + i / 3) * 81 + (b % 3 * 3 + i % 3) * 9 +
        theDigit A ((b / 3 * 3 + i / 3) * 9 + (b % 3 * 3 + i % 3))) = true := by
    intro i hi
    have ht := theDigit_true (hcovA ((b / 3 * 3 + i / 3) * 9 + (b % 3 * 3 + i % 3)) (by omega))
    rwa [cellVar_block hb hi] at ht
  constructor
  · have hinj : Function.Injective
        (fun i : Fin 9 =>
          (⟨theDigit A ((b / 3 * 3 + i.val / 3) * 9 + (b % 3 * 3 + i.val % 3)),
            theDigit_lt A _⟩ : Fin 9)) := by
      intro i1 i2 hf
      have ht : theDigit A ((b / 3 * 3 + i1.val / 3) * 9 + (b % 3 * 3 + i1.val % 3)) =
          theDigit A ((b / 3 * 3 + i2.val / 3) * 9 + (b % 3 * 3 + i2.val % 3)) :=
        congrArg Fin.val hf
      by_contra hne
      have hne2 : i1.val ≠ i2.val := fun h => hne (Fin.ext h)
      have hA1 := hAcell i1.val i1.isLt
      have hA2 := hAcell i2.val i2.isLt
      rw [← ht] at hA2
      rcases hblock b hb i1.val i1.isLt
          (theDigit A ((b / 3 * 3 + i1.val / 3) * 9 + (b % 3 * 3 + i1.val % 3)))
          (theDigit_lt A _) i2.val i2.isLt hne2 with h | h
      · rw [hA1] at h
        exact Bool.noConfusion h
      · rw [hA2] at h
        exact Bool.noConfusion h
    obtain ⟨i, hi⟩ := Finite.injective_iff_surjective.mp hinj ⟨d, hd⟩
    refine ⟨i.val, i.isLt, ?_⟩
    have hid : theDigit A ((b / 3 * 3 + i.val / 3) * 9 + (b % 3 * 3 + i.val % 3)) = d :=
      congrArg Fin.val hi
    rw [Grid.get, hR ((b / 3 * 3 + i.val / 3) * 9 + (b % 3 * 3 + i.val % 3)) (by omega), hid]
  · intro i hi i2 hi2 h1 h2
    rw [Grid.get, hR ((b / 3 * 3 + i / 3) * 9 + (b % 3 * 3 + i % 3)) (by omega)] at h1
    rw [Grid.get, hR ((b / 3 * 3 + i2 / 3) * 9 + (b % 3 * 3 + i2 % 3)) (by omega)] at h2
    have hd1 := Option.some.inj h1
    have hd2 := Option.some.inj h2
    by_contra hne
    have hA1 := hAcell i hi
    have hA2 := hAcell i2 hi2
    rw [hd1] at hA1
    rw [hd2] at hA2
    rcases hblock b hb i hi d hd i2 hi2 hne with h | h
    · rw [hA1] at h
      exact Bool.noConfusion h
    · rw [hA2] at h
      exact Bool.noConfusion h

/-! ## C2 and C3: correctness of the solved grid -/

/-- C2: if the solver's assignment satisfies every clause of the
puzzle-independent formula plus the given-digit unit clauses, `Grid::solve`
returns a grid that is completely filled and in which every row, column and
block contains each digit exactly once. (The input grid carries the data
model's invariant: 81 cells, stored digits in `[0, 8]`.) -/
theorem claim_C2_solved_grid_valid (g : Grid) (A : Nat → Bool)
    (hlen : g.cells.length = 81)
    (hdig9 : ∀ j < 81, ∀ p, g.cells.getD j none = some p → p < 9)
    (hsat : satFormula A (sudoku_formula ++ givenClauses g) = true) :
    ∃ g2, Grid.solve g (.sat A) = .ok g2 ∧ g2.filled ∧
      g2.rowsValid ∧ g2.colsValid ∧ g2.blocksValid := by
  obtain ⟨hF, hG⟩ := satFormula_append.mp hsat
  obtain ⟨hCell, hRow, hCol, hBlock⟩ := sat_sudoku_formula_iff.mp hF
  have hcell2 := sat_cellClauses_iff.mp hCell
  have huniqA := uniq_cellVar fun y hy x hx => (hcell2 y hy x hx).1
  have hcovA := cov_cellVar fun y hy x hx => (hcell2 y hy x hx).2
  have hgivA := given_cellVar (sat_givenClauses_iff.mp hG)
  obtain ⟨cs2, hdm, hlen2, hval⟩ :=
    decodeModel_complete hlen hdig9 huniqA hcovA hgivA
  refine ⟨⟨cs2⟩, solve_sat_of_decode hdm, ?_, ?_, ?_, ?_⟩
  · intro j hj
    rw [hval j hj]
    simp
  · exact rowsValid_of_theDigit hval hcovA (sat_rowClauses_iff.mp hRow)
  · exact colsValid_of_theDigit hval hcovA (sat_columnClauses_iff.mp hCol)
  · exact blocksValid_of_theDigit hval hcovA (sat_blockClauses_iff.mp hBlock)

/-- C3: under the same satisfaction hypothesis, every cell filled in the
input grid holds the same digit in the solved grid. -/
theorem claim_C3_givens_preserved (g : Grid) (A : Nat → Bool)
    (hlen : g.cells.length = 81)
    (hdig9 : ∀ j < 81, ∀ p, g.cells.getD j none = some p → p < 9)
    (hsat : satFormula A (sudoku_formula ++ givenClauses g) = true)
    (x y d : Nat) (hx : x < 9) (hy : y < 9) (hgiven : g.get x y = some d) :
    ∃ g2, Grid.solve g (.sat A) = .ok g2 ∧ g2.get x y = some d := by
  obtain ⟨hF, hG⟩ := satFormula_append.mp hsat
  obtain ⟨hCell, _, _, _⟩ := sat_sudoku_formula_iff.mp hF
  have hcell2 := sat_cellClauses_iff.mp hCell
  have huniqA := uniq_cellVar fun y2 hy2 x2 hx2 => (hcell2 y2 hy2 x2 hx2).1
  have hcovA := cov_cellVar fun y2 hy2 x2 hx2 => (hcell2 y2 hy2 x2 hx2).2
  have hgivA := given_cellVar (sat_givenClauses_iff.mp hG)
  obtain ⟨cs2, hdm, hlen2, hval⟩ :=
    decodeModel_complete hlen hdig9 huniqA hcovA hgivA
  have hj : y * 9 + x < 81 := by omega
  rw [Grid.get] at hgiven
  have hd9 := hdig9 (y * 9 + x) hj d hgiven
  have hAd := hgivA (y * 9 + x) hj d hgiven
  have hdg : theDigit A (y * 9 + x) = d := theDigit_eq (huniqA (y * 9 + x) hj) hd9 hAd
  refine ⟨⟨cs2⟩, solve_sat_of_decode hdm, ?_⟩
  rw [Grid.get]
  show cs2.getD (y * 9 + x) none = some d
  rw [hval (y * 9 + x) hj, hdg]

/-! ## C8: the decode-conflict branch -/

lemma decodeStep_conflict {cs : List Cell} {id p : Nat}
    (hc : cs.getD (cellIndex id) none = some p) (hne : p ≠ id % 9) :
    decodeStep cs id = none := by
  unfold decodeStep
  simp only [hc]
  rw [if_pos hne]

lemma decodeFold_append (A : Nat → Bool) (acc : Option (List Cell))
    (l1 l2 : List Nat) :
    decodeFold A acc (l1 ++ l2) = decodeFold A (decodeFold A acc l1) l2 := by
  unfold decodeFold
  rw [List.foldl_append]

set_option maxRecDepth 4000 in
set_option synthInstance.maxSize 2000 in
set_option maxHeartbeats 2000000 in
/-- C8 counterexample: an assignment satisfying every cell-uniqueness clause
under which `Grid::solve` nevertheless reaches the conflict branch — the
assignment makes exactly the literal for digit 2 of cell `(0,0)` positive
while the input grid presets that cell to digit 1, so the decoded digit
conflicts with the pre-filled one. -/
theorem claim_C8_counterexample :
    satFormula (fun id => id == 1) cellUniquenessClauses = true ∧
      Grid.solve ⟨some 0 :: List.replicate 80 none⟩ (.sat fun id => id == 1) =
        .fatal := by
  constructor
  · rw [sat_cellUniquenessClauses_iff]
    decide
  · decide

/-- C8 (amended): a positive literal whose decoded digit differs from the
digit its target cell already holds makes `Grid::solve` halt fatally; and the
conflict branch is never reached when the assignment satisfies the cell
uniqueness clauses together with the grid's given-digit unit clauses (the
grid carrying the data model's invariant). -/
theorem claim_C8_conflict_fatal_and_unreachable :
    (∀ (g : Grid) (A : Nat → Bool) (id p : Nat) (cs : List Cell),
        id < 729 → A id = true → decodePrefix A g.cells id = some cs →
        cs.getD (cellIndex id) none = some p → p ≠ id % 9 →
        Grid.solve g (.sat A) = .fatal) ∧
      (∀ (g : Grid) (A : Nat → Bool),
        g.cells.length = 81 →
        (∀ j < 81, ∀ p, g.cells.getD j none = some p → p < 9) →
        satFormula A (cellUniquenessClauses ++ givenClauses g) = true →
        Grid.solve g (.sat A) ≠ .fatal) := by
  constructor
  · intro g A id p cs hid hA hpre hc hne
    apply solve_sat_of_conflict
    rw [decodePrefix] at hpre
    have h729 : 729 = (id + 1) + (728 - id) := by omega
    rw [decodeModel, h729, List.range_add, decodeFold_append, List.range_succ,
      decodeFold_append, hpre, decodeFold_cons, if_pos hA,
      decodeStep_conflict hc hne, decodeFold_nil, decodeFold_none_acc]
  · intro g A hlen hdig9 hsat
    obtain ⟨hU, hG⟩ := satFormula_append.mp hsat
    have huniqA := uniq_cellVar (sat_cellUniquenessClauses_iff.mp hU)
    have hgivA := given_cellVar (sat_givenClauses_iff.mp hG)
    obtain ⟨cs2, hdm, _, _⟩ := decodeModel_no_conflict hlen hdig9 huniqA hgivA
    rw [solve_sat_of_decode hdm]
    exact fun hcontra => SolveOutcome.noConfusion hcontra

/-! ## C9: the grid invariant at the public interface -/

lemma parseChar_cell_lt {c : Char} {cell : Cell} (h : parseChar c = .ok cell) :
    ∀ p, cell = some p → p < 9 := by
  intro p hp
  unfold parseChar at h
  split_ifs at h with h1 h2
  · rw [hp] at h
    have hv := Option.some.inj (Except.ok.inj h)
    have h9 : c.toNat ≤ 57 := by
      have h2 := h1.2
      rw [Char.le_def] at h2
      exact h2
    have h48 : '0'.toNat = 48 := by decide
    omega
  · rw [hp] at h
    exact Option.noConfusion (Except.ok.inj h)

lemma parseCells_cells_lt : ∀ {l : List Char} {cs : List Cell},
    parseCells l = .ok cs → ∀ c ∈ cs, ∀ p, c = some p → p < 9 := by
  intro l
  induction l with
  | nil =>
    intro cs h
    rw [parseCells] at h
    cases h
    intro c hc
    exact absurd hc (List.not_mem_nil c)
  | cons ch rest ih =>
    intro cs h
    rw [parseCells] at h
    cases hpc : parseChar ch with
    | error e => rw [hpc] at h; exact Except.noConfusion h
    | ok cell =>
      rw [hpc] at h
      cases hpr : parseCells rest with
      | error e => rw [hpr] at h; exact Except.noConfusion h
      | ok cells =>
        rw [hpr] at h
        cases h
        intro c hc p hp
        rcases List.mem_cons.mp hc with rfl | hc2
        · exact parseChar_cell_lt hpc p hp
        · exact ih hpr c hc2 p hp

lemma from_str_wf {s : String} {g : Grid} (h : Grid.from_str s = .ok g) :
    g.wf := by
  unfold Grid.from_str at h
  split at h
  · exact Except.noConfusion h
  · split at h
    · cases h
      next cs heq h81 =>
        exact ⟨h81, parseCells_cells_lt heq⟩
    · exact Except.noConfusion h

lemma decodeStep_cases {cs : List Cell} {id : Nat} {cs2 : List Cell}
    (h : decodeStep cs id = some cs2) :
    cs2 = cs.set (cellIndex id) (some (id % 9)) := by
  unfold decodeStep at h
  split at h
  · split at h
    · exact Option.noConfusion h
    · exact (Option.some.inj h).symm
  · exact (Option.some.inj h).symm

lemma decodeFold_wf (A : Nat → Bool) : ∀ (ids : List Nat) (cs cs2 : List Cell),
    decodeFold A (some cs) ids = some cs2 →
    cs2.length = cs.length ∧ ∀ c ∈ cs2, c ∈ cs ∨ ∃ t < 9, c = some t := by
  intro ids
  induction ids with
  | nil =>
    intro cs cs2 h
    rw [decodeFold_nil] at h
    cases h
    exact ⟨rfl, fun c hc => Or.inl hc⟩
  | cons id rest ih =>
    intro cs cs2 h
    rw [decodeFold_cons] at h
    by_cases hA : A id = true
    · rw [if_pos hA] at h
      cases hds : decodeStep cs id with
      | none =>
        rw [hds, decodeFold_none_acc] at h
        exact Option.noConfusion h
      | some cs1 =>
        rw [hds] at h
        obtain ⟨hl, hm⟩ := ih cs1 cs2 h
        have hcs1 := decodeStep_cases hds
        subst hcs1
        refine ⟨by rw [hl, List.length_set], ?_⟩
        intro c hc
        rcases hm c hc with hc1 | hc1
        · rcases List.mem_or_eq_of_mem_set hc1 with h2 | h2
          · exact Or.inl h2
          · exact Or.inr ⟨id % 9, by omega, h2⟩
        · exact Or.inr hc1
    · rw [if_neg hA] at h
      exact ih cs cs2 h

lemma solve_wf {g g2 : Grid} {res : SolveResult} (hwf : g.wf)
    (h : Grid.solve g res = .ok g2) : g2.wf := by
  cases res with
  | unsat => exact SolveOutcome.noConfusion h
  | sat A =>
    have hsolve : Grid.solve g (.sat A) = decodeOutcome (decodeModel A g.cells) := rfl
    rw [hsolve] at h
    cases hdm : decodeModel A g.cells with
    | none =>
      rw [hdm] at h
      exact SolveOutcome.noConfusion h
    | some cs =>
      rw [hdm] at h
      have hok : decodeOutcome (some cs) = SolveOutcome.ok ⟨cs⟩ := rfl
      rw [hok] at h
      have hg2 : g2 = ⟨cs⟩ := (SolveOutcome.ok.inj h).symm
      subst hg2
      obtain ⟨hlen, hdig⟩ := hwf
      rw [decodeModel] at hdm
      obtain ⟨hl, hm⟩ := decodeFold_wf A (List.range 729) g.cells cs hdm
      refine ⟨?_, ?_⟩
      · show cs.length = 81
        rw [hl, hlen]
      · intro c hc p hp
        rcases hm c hc with h1 | h1
        · exact hdig c h1 p hp
        · obtain ⟨t, ht9, hct⟩ := h1
          rw [hct] at hp
          have := Option.some.inj hp
          omega

/-- C9: every grid produced at the public interface satisfies the data-model
invariant — `Grid::from_str` establishes it and `Grid::solve` preserves it:
exactly 81 cells, every filled cell holding a zero-based digit below 9. -/
theorem claim_C9_grid_invariant :
    (∀ (s : String) (g : Grid), Grid.from_str s = .ok g → g.wf) ∧
      ∀ (g : Grid) (res : SolveResult) (g2 : Grid), g.wf →
        Grid.solve g res = .ok g2 → g2.wf :=
  ⟨fun _ _ h => from_str_wf h, fun _ _ _ hw h => solve_wf hw h⟩

/-! ## C10: every referenced variable is below 729 -/

lemma pair_vars {u v : Nat} {l : Lit} (hl : l ∈ [negLit u, negLit v]) :
    l.idx = u ∨ l.idx = v := by
  rcases List.mem_cons.mp hl with rfl | hl2
  · exact Or.inl rfl
  · rcases List.mem_cons.mp hl2 with rfl | hl3
    · exact Or.inr rfl
    · exact absurd hl3 (List.not_mem_nil l)

lemma cellClauses_vars : ∀ c ∈ cellClauses, ∀ l ∈ c, l.idx < 729 := by
  intro c hc l hl
  rw [cellClauses] at hc
  obtain ⟨y, hy, hc⟩ := List.mem_flatMap.mp hc
  obtain ⟨x, hx, hc⟩ := List.mem_flatMap.mp hc
  rw [List.mem_range] at hy hx
  rcases List.mem_append.mp hc with hc | hc
  · rw [cellUniqClauses] at hc
    obtain ⟨a, ha, hc⟩ := List.mem_flatMap.mp hc
    obtain ⟨b, hb, rfl⟩ := List.mem_map.mp hc
    have hb2 := (List.mem_filter.mp hb).1
    rw [List.mem_range] at ha hb2
    rcases pair_vars hl with h | h <;> rw [h] <;> omega
  · rw [List.mem_singleton] at hc
    subst hc
    rw [cellCovClause] at hl
    obtain ⟨v, hv, rfl⟩ := List.mem_map.mp hl
    rw [List.mem_range] at hv
    show y * 81 + x * 9 + v < 729
    omega

lemma rowClauses_vars : ∀ c ∈ rowClauses, ∀ l ∈ c, l.idx < 729 := by
  intro c hc l hl
  rw [rowClauses] at hc
  obtain ⟨y, hy, hc⟩ := List.mem_flatMap.mp hc
  obtain ⟨x, hx, hc⟩ := List.mem_flatMap.mp hc
  obtain ⟨d, hd, hc⟩ := List.mem_flatMap.mp hc
  obtain ⟨x2, hx2, rfl⟩ := List.mem_map.mp hc
  have hx22 := (List.mem_filter.mp hx2).1
  rw [List.mem_range] at hy hx hd hx22
  rcases pair_vars hl with h | h <;> rw [h] <;> omega

lemma columnClauses_vars : ∀ c ∈ columnClauses, ∀ l ∈ c, l.idx < 729 := by
  intro c hc l hl
  rw [columnClauses] at hc
  obtain ⟨x, hx, hc⟩ := List.mem_flatMap.mp hc
  obtain ⟨y, hy, hc⟩ := List.mem_flatMap.mp hc
  obtain ⟨d, hd, hc⟩ := List.mem_flatMap.mp hc
  obtain ⟨y2, hy2, rfl⟩ := List.mem_map.mp hc
  have hy22 := (List.mem_filter.mp hy2).1
  rw [List.mem_range] at hy hx hd hy22
  rcases pair_vars hl with h | h <;> rw [h] <;> omega

lemma blockClauses_vars : ∀ c ∈ blockClauses, ∀ l ∈ c, l.idx < 729 := by
  intro c hc l hl
  rw [blockClauses] at hc
  obtain ⟨b, hb, hc⟩ := List.mem_flatMap.mp hc
  obtain ⟨i, hi, hc⟩ := List.mem_flatMap.mp hc
  obtain ⟨d, hd, hc⟩ := List.mem_flatMap.mp hc
  obtain ⟨i2, hi2, rfl⟩ := List.mem_map.mp hc
  have hi22 := (List.mem_filter.mp hi2).1
  rw [List.mem_range] at hb hi hd hi22
  rcases pair_vars hl with h | h <;> rw [h] <;> omega

lemma givenClauses_vars {g : Grid}
    (hw : ∀ j < 81, ∀ p, g.cells.getD j none = some p → p < 9) :
    ∀ c ∈ givenClauses g, ∀ l ∈ c, l.idx < 729 := by
  intro c hc l hl
  rw [givenClauses] at hc
  obtain ⟨y, hy, hc⟩ := List.mem_flatMap.mp hc
  obtain ⟨x, hx, hc⟩ := List.mem_flatMap.mp hc
  rw [List.mem_range] at hy hx
  cases hgd : g.get x y with
  | none =>
    rw [hgd] at hc
    exact absurd hc (List.not_mem_nil c)
  | some d =>
    rw [hgd] at hc
    rw [List.mem_singleton] at hc
    subst hc
    rw [List.mem_singleton] at hl
    subst hl
    rw [Grid.get] at hgd
    have hd9 := hw (y * 9 + x) (by omega) d hgd
    show y * 81 + x * 9 + d < 729
    omega

/-- C10: every variable referenced by the formula and by the given-digit unit
clauses of an invariant-respecting grid has index below 729, and the flat
cell index the decoder computes from any such variable is below 81, so the
decoder's cell write stays in bounds. -/
theorem claim_C10_variables_in_range (g : Grid)
    (hw : ∀ j < 81, ∀ p, g.cells.getD j none = some p → p < 9) :
    (∀ c ∈ sudoku_formula ++ givenClauses g, ∀ l ∈ c, l.idx < 729) ∧
      ∀ id < 729, cellIndex id < 81 := by
  refine ⟨?_, fun id hid => cellIndex_lt hid⟩
  intro c hc l hl
  rcases List.mem_append.mp hc with hc | hc
  · rw [sudoku_formula] at hc
    rcases List.mem_append.mp hc with hc | hc
    · rcases List.mem_append.mp hc with hc | hc
      · rcases List.mem_append.mp hc with hc | hc
        · exact cellClauses_vars c hc l hl
        · exact rowClauses_vars c hc l hl
      · exact columnClauses_vars c hc l hl
    · exact blockClauses_vars c hc l hl
  · exact givenClauses_vars hw c hc l hl

/-! ## A concrete model of the formula, for the witnesses -/

/-- A valid completed Sudoku board (zero-based digits, row-major):
cell `(r, c)` holds `(3 * (r % 3) + r / 3 + c) % 9`. -/
def sol : List Nat :=
  [0, 1, 2, 3, 4, 5, 6, 7, 8,
   3, 4, 5, 6, 7, 8, 0, 1, 2,
   6, 7, 8, 0, 1, 2, 3, 4, 5,
   1, 2, 3, 4, 5, 6, 7, 8, 0,
   4, 5, 6, 7, 8, 0, 1, 2, 3,
   7, 8, 0, 1, 2, 3, 4, 5, 6,
   2, 3, 4, 5, 6, 7, 8, 0, 1,
   5, 6, 7, 8, 0, 1, 2, 3, 4,
   8, 0, 1, 2, 3, 4, 5, 6, 7]

/-- The assignment reading that board: variable `id` is true exactly when the
board's digit at the cell `id` targets equals the digit `id` names. -/
def solA : Nat → Bool := fun id => sol.getD (cellIndex id) 9 == id % 9

set_option maxRecDepth 4000 in
set_option synthInstance.maxSize 2000 in
set_option maxHeartbeats 2000000 in
lemma solA_sat_cells : satFormula solA cellClauses = true := by
  rw [sat_cellClauses_iff]
  decide

set_option maxRecDepth 4000 in
set_option synthInstance.maxSize 2000 in
set_option maxHeartbeats 2000000 in
lemma solA_sat_uniq : satFormula solA cellUniquenessClauses = true := by
  rw [sat_cellUniquenessClauses_iff]
  decide

set_option maxRecDepth 4000 in
set_option synthInstance.maxSize 2000 in
set_option maxHeartbeats 2000000 in
lemma solA_sat_rows : satFormula solA rowClauses = true := by
  rw [sat_rowClauses_iff]
  decide

set_option maxRecDepth 4000 in
set_option synthInstance.maxSize 2000 in
set_option maxHeartbeats 2000000 in
lemma solA_sat_cols : satFormula solA columnClauses = true := by
  rw [sat_columnClauses_iff]
  decide

set_option maxRecDepth 4000 in
set_option synthInstance.maxSize 2000 in
set_option maxHeartbeats 2000000 in
lemma solA_sat_blocks : satFormula solA blockClauses = true := by
  rw [sat_blockClauses_iff]
  decide

lemma solA_sat_formula : satFormula solA sudoku_formula = true := by
  rw [sat_sudoku_formula_iff]
  exact ⟨solA_sat_cells, solA_sat_rows, solA_sat_cols, solA_sat_blocks⟩

lemma getD_replicate_none (n k : Nat) :
    (List.replicate n (none : Cell)).getD k none = none := by
  rw [List.getD_eq_getElem?_getD, List.getElem?_replicate]
  split <;> rfl

lemma emptyGrid_digits :
    ∀ j < 81, ∀ p, emptyGrid.cells.getD j none = some p → p < 9 := by
  intro j hj p hp
  rw [show emptyGrid.cells = List.replicate 81 none from rfl,
    getD_replicate_none] at hp
  exact Option.noConfusion hp

set_option maxRecDepth 3000 in
lemma emptyGrid_givens : givenClauses emptyGrid = [] := by decide

/-- A grid with a single given: cell `(0,0)` preset to zero-based digit 0. -/
def oneGivenGrid : Grid := ⟨some 0 :: List.replicate 80 none⟩

lemma oneGivenGrid_digits :
    ∀ j < 81, ∀ p, oneGivenGrid.cells.getD j none = some p → p < 9 := by
  intro j hj p hp
  cases j with
  | zero =>
    have h0 : oneGivenGrid.cells.getD 0 none = some 0 := rfl
    rw [h0] at hp
    have := Option.some.inj hp
    omega
  | succ k =>
    rw [show oneGivenGrid.cells = some 0 :: List.replicate 80 none from rfl,
      List.getD_cons_succ, getD_replicate_none] at hp
    exact Option.noConfusion hp

set_option maxRecDepth 3000 in
lemma oneGivenGrid_givens : givenClauses oneGivenGrid = [[posLit 0]] := by decide

lemma oneGivenGrid_sat :
    satFormula solA (sudoku_formula ++ givenClauses oneGivenGrid) = true := by
  rw [satFormula_append, oneGivenGrid_givens]
  exact ⟨solA_sat_formula, by decide⟩

/-- C2 witness: solving the blank grid with the concrete model of the formula
produces a filled, row-, column- and block-valid grid. -/
theorem claim_C2_witness :
    ∃ g2, Grid.solve emptyGrid (.sat solA) = .ok g2 ∧ g2.filled ∧
      g2.rowsValid ∧ g2.colsValid ∧ g2.blocksValid :=
  claim_C2_solved_grid_valid emptyGrid solA (by rfl) emptyGrid_digits
    (by rw [emptyGrid_givens, List.append_nil]; exact solA_sat_formula)

/-- C3 witness: with cell `(0,0)` given as digit 0 and the concrete model
(which satisfies that unit clause), the solved grid keeps the given. -/
theorem claim_C3_witness :
    ∃ g2, Grid.solve oneGivenGrid (.sat solA) = .ok g2 ∧ g2.get 0 0 = some 0 :=
  claim_C3_givens_preserved oneGivenGrid solA (by rfl) oneGivenGrid_digits
    oneGivenGrid_sat 0 0 0 (by decide) (by decide) (by rfl)

set_option maxRecDepth 3000 in
/-- C8 witness: both halves at concrete inputs — a conflicting positive
literal aborts, and a uniqueness- and givens-respecting model does not. -/
theorem claim_C8_witness :
    Grid.solve ⟨some 0 :: List.replicate 80 none⟩ (.sat fun id => id == 1) =
        .fatal ∧
      Grid.solve oneGivenGrid (.sat solA) ≠ .fatal :=
  ⟨claim_C8_conflict_fatal_and_unreachable.1 ⟨some 0 :: List.replicate 80 none⟩
      (fun id => id == 1) 1 0 (some 0 :: List.replicate 80 none) (by decide)
      (by decide) (by decide) (by decide) (by decide),
    claim_C8_conflict_fatal_and_unreachable.2 oneGivenGrid solA (by rfl)
      oneGivenGrid_digits
      (by rw [satFormula_append, oneGivenGrid_givens]
          exact ⟨solA_sat_uniq, by decide⟩)⟩

/-- C10 witness: the bounds at the blank grid. -/
theorem claim_C10_witness :
    (∀ c ∈ sudoku_formula ++ givenClauses emptyGrid, ∀ l ∈ c, l.idx < 729) ∧
      ∀ id < 729, cellIndex id < 81 :=
  claim_C10_variables_in_range emptyGrid emptyGrid_digits
